import Mathlib

set_option maxHeartbeats 1000000
set_option maxRecDepth 20000

namespace TabJump

/-- Maximum number of history entries kept (constant TAB_HISTORY_LIMIT in background.js). -/
def TAB_HISTORY_LIMIT : Nat := 1000

/-- Minimum interval in milliseconds between accepted commands (MIN_COMMAND_INTERVAL). -/
def MIN_COMMAND_INTERVAL : Nat := 100

/-- A history entry as built by addTabToHistory: an object with fields id, title
and favIconUrl (the favicon may be absent, i.e. undefined in the source). -/
structure Tab where
  id : Nat
  title : String
  favIconUrl : Option String
deriving DecidableEq

/-- The record returned by the tab-query primitive chrome.tabs.get: its title and
favicon fields may themselves be absent. -/
structure TabInfo where
  id : Nat
  title : Option String
  favIconUrl : Option String
deriving DecidableEq

/-- The committed extension state: the persisted pair tabHistory / tabHistoryIndex.
A history cell is an Option Tab because a JavaScript array cell can hold undefined:
clearTabHistory reads tabHistory[tabHistoryIndex] without a bounds check and stores
the result back into the persisted array. -/
structure ExtState where
  tabHistory : List (Option Tab)
  tabHistoryIndex : Int
deriving DecidableEq

/-- The browser environment a single command snapshot sees: chrome.tabs.get as a
partial map from tab id to tab data (none models the NotFound rejection), and the
ids answered by chrome.tabs.query. -/
structure Env where
  getTab : Nat → Option TabInfo
  openTabIds : List Nat

/-- JavaScript Array.prototype.slice with one argument, as used on tabHistory: a
negative start counts from the end and is clamped at 0, a start past the end gives
the empty array. -/
def jsSlice (l : List (Option Tab)) (start : Int) : List (Option Tab) :=
  if start < 0 then l.drop ((l.length + start).toNat) else l.drop start.toNat

/-- JavaScript subscript l[i] on the history array: a negative or out-of-range index
reads undefined, and an in-range cell can itself hold undefined, so both give none. -/
def jsIndex (l : List (Option Tab)) (i : Int) : Option Tab :=
  if i < 0 then none else (l.get? i.toNat).getD none

/-- JavaScript strict equality between the number id and a history cell, exactly as
in the duplicate check of addTabToHistory, line 90 of background.js:
id === tabHistory[tabHistoryIndex]. The cell is an object built at line 105 (or
undefined), never a number, and strict equality between a number and an object or
undefined does not coerce, so the comparison is false for every id and every cell. -/
def jsIdEqCell (_id : Nat) (_cell : Option Tab) : Bool := false

/-- The fallback title used when result.title is falsy (absent or the empty string). -/
def defaultTitle (id : Nat) : String := toString id ++ " (no title)"

/-- Builds the stored record from a chrome.tabs.get result, line 105 of the source:
id is result.id, title is result.title when truthy and the fallback otherwise,
favIconUrl is copied as is. -/
def mkTab (r : TabInfo) : Tab :=
  { id := r.id
  , title := match r.title with
      | some t => if t = "" then defaultTitle r.id else t
      | none => defaultTitle r.id
  , favIconUrl := r.favIconUrl }

/-- The programmaticChanges bookkeeping done by openTabByIndex, lines 164 to 167:
ensure a zero entry exists for the id, then increment it (an absent key behaves
as zero, so the net effect is an increment). -/
def bumpProg (prog : Nat → Nat) (id : Nat) : Nat → Nat :=
  fun k => if k = id then prog k + 1 else prog k

/-- addTabToHistory from background.js, lines 77 to 117, acting on the committed
pair and the programmaticChanges map. A positive suppression count is decremented
and nothing else happens. Otherwise: an index of minus one with a non-empty history
is treated as zero (lines 86 to 88); the duplicate check of line 90 compares the
number id against the history cell with strict equality; a non-zero index drops the
entries before it via slice and resets the index to zero (lines 97 to 101); then
chrome.tabs.get is consulted, a failure being caught with nothing saved; on success
the new record is prepended and the history truncated to TAB_HISTORY_LIMIT. -/
def addTabToHistory (env : Env) (prog : Nat → Nat) (s : ExtState) (id : Nat) :
    ExtState × (Nat → Nat) :=
  if 0 < prog id then
    (s, fun k => if k = id then prog k - 1 else prog k)
  else
    let i1 : Int :=
      if s.tabHistoryIndex = -1 ∧ 0 < s.tabHistory.length then 0 else s.tabHistoryIndex
    if i1 < (s.tabHistory.length : Int) ∧ jsIdEqCell id (jsIndex s.tabHistory i1) then
      (s, prog)
    else
      let h2 := if i1 ≠ 0 then jsSlice s.tabHistory i1 else s.tabHistory
      let i2 : Int := if i1 ≠ 0 then 0 else i1
      match env.getTab id with
      | none => (s, prog)
      | some r =>
        let h3 := some (mkTab r) :: h2
        let h4 := if TAB_HISTORY_LIMIT < h3.length then h3.take TAB_HISTORY_LIMIT else h3
        (⟨h4, i2⟩, prog)

/-- The scan findIndex performed by removeTabFromHistory and updateTabInfo,
comparing tab.id to the requested id left to right; reading the id field of an
undefined cell throws a TypeError, modelled as an error. -/
def jsFindIndexById : List (Option Tab) → Nat → Except Unit (Option Nat)
  | [], _ => .ok none
  | none :: _, _ => .error ()
  | some t :: rest, id =>
    if t.id = id then .ok (some 0)
    else
      match jsFindIndexById rest id with
      | .error e => .error e
      | .ok none => .ok none
      | .ok (some k) => .ok (some (k + 1))

/-- The filter of removeTabFromHistory keeping the entries whose id differs from
the removed id; it also reads the id field of every cell and therefore throws on
an undefined cell. -/
def jsRemoveId : List (Option Tab) → Nat → Except Unit (List (Option Tab))
  | [], _ => .ok []
  | none :: _, _ => .error ()
  | some t :: rest, id =>
    match jsRemoveId rest id with
    | .error e => .error e
    | .ok l => .ok (if t.id = id then l else some t :: l)

/-- removeTabFromHistory from background.js, lines 120 to 130: when the id occurs,
every entry with that id is filtered out and the index is decremented only when the
first occurrence sat strictly before it; a thrown TypeError propagates before the
save, leaving the committed pair unchanged. -/
def removeTabFromHistory (s : ExtState) (id : Nat) : ExtState :=
  match jsFindIndexById s.tabHistory id with
  | .error _ => s
  | .ok none => s
  | .ok (some idx) =>
    match jsRemoveId s.tabHistory id with
    | .error _ => s
    | .ok h =>
      ⟨h, if (idx : Int) < s.tabHistoryIndex then s.tabHistoryIndex - 1
          else s.tabHistoryIndex⟩

/-- clearTabHistory from background.js, lines 133 to 148: with a non-minus-one
index and a non-empty history the history collapses to the single cell read at the
current index (undefined when the index is out of range) with index zero; otherwise
the state becomes the empty pair. -/
def clearTabHistory (s : ExtState) : ExtState :=
  if s.tabHistoryIndex ≠ -1 ∧ 0 < s.tabHistory.length then
    ⟨[jsIndex s.tabHistory s.tabHistoryIndex], 0⟩
  else
    ⟨[], -1⟩

/-- The changeInfo patch handed to updateTabInfo: optional new title and favicon;
an absent field or an empty string is falsy in the source's truthiness tests. -/
structure Changes where
  title : Option String
  favIconUrl : Option String

/-- JavaScript truthiness of an optional string: absent and empty are falsy. -/
def jsTruthy : Option String → Bool
  | none => false
  | some t => !(t == "")

/-- updateTabInfo from background.js, lines 183 to 200: locate the first entry with
the given id, patch its title and favicon fields in place when the corresponding
change is truthy, and persist; when the id is absent nothing is saved; a TypeError
from an undefined cell is caught with nothing saved. -/
def updateTabInfo (s : ExtState) (id : Nat) (c : Changes) : ExtState :=
  match jsFindIndexById s.tabHistory id with
  | .error _ => s
  | .ok none => s
  | .ok (some idx) =>
    let patched : Option Tab :=
      match jsIndex s.tabHistory (idx : Int) with
      | none => none
      | some t =>
        some { t with
               title := if jsTruthy c.title then c.title.getD t.title else t.title
             , favIconUrl := if jsTruthy c.favIconUrl then c.favIconUrl else t.favIconUrl }
    ⟨s.tabHistory.set idx patched, s.tabHistoryIndex⟩

/-- openTabByIndex from background.js, lines 151 to 180. The first component is the
settled promise: ok b for resolve(b), error for reject (the source rejects when
chrome.tabs.get, chrome.windows.update or chrome.tabs.update throws, and it also
throws when the history cell at the index is undefined). The second component is
the committed pair, the third the programmaticChanges map; the counter is bumped
before chrome.tabs.get, so the bump survives a failed activation. Out of range
indices resolve false with nothing saved; on success the pair (index, tabHistory)
is saved and the promise resolves true. -/
def openTabByIndex (env : Env) (prog : Nat → Nat) (s : ExtState) (index : Int) :
    Except Unit Bool × ExtState × (Nat → Nat) :=
  if index < 0 ∨ (s.tabHistory.length : Int) ≤ index then
    (.ok false, s, prog)
  else
    match jsIndex s.tabHistory index with
    | none => (.error (), s, prog)
    | some t =>
      let prog1 := bumpProg prog t.id
      match env.getTab t.id with
      | none => (.error (), s, prog1)
      | some _ => (.ok true, ⟨s.tabHistory, index⟩, prog1)

/-- canExecuteCommand from background.js, lines 49 to 56: given the stored
lastCommandExecutionTime and the current Date.now reading, accept when at least
MIN_COMMAND_INTERVAL elapsed, updating the timestamp only on acceptance. -/
def canExecuteCommand (last now : Nat) : Bool × Nat :=
  if MIN_COMMAND_INTERVAL ≤ now - last then (true, now) else (false, last)

/-- goBack from background.js, lines 203 to 235, one list element per invocation
(each re-entry reads a fresh Date.now value). A throttled call resolves with
nothing saved. A candidate index at or past the length resolves with nothing
saved. Otherwise openTabByIndex runs on the same snapshot: a rejection is caught
by the outer catch with the committed pair unchanged; resolve true commits the
pair (tabHistory, index plus offset); resolve false (candidate below zero, which
the upper-bound guard cannot rule out for a negative stored index) recurses with
the offset incremented against the unchanged state. -/
def goBackAux (env : Env) (prog : Nat → Nat) (s : ExtState) (last : Nat) (o : Int) :
    List Nat → ExtState × (Nat → Nat) × Nat
  | [] => (s, prog, last)
  | now :: rest =>
    match canExecuteCommand last now with
    | (false, l) => (s, prog, l)
    | (true, l) =>
      if (s.tabHistory.length : Int) ≤ s.tabHistoryIndex + o then (s, prog, l)
      else
        match openTabByIndex env prog s (s.tabHistoryIndex + o) with
        | (.error _, _, p) => (s, p, l)
        | (.ok true, _, p) => (⟨s.tabHistory, s.tabHistoryIndex + o⟩, p, l)
        | (.ok false, _, p) => goBackAux env p s l (o + 1) rest

/-- goBack as invoked by the command listener, with the default offset of one. -/
def goBack (env : Env) (prog : Nat → Nat) (s : ExtState) (nows : List Nat)
    (last : Nat) : ExtState × (Nat → Nat) × Nat :=
  goBackAux env prog s last 1 nows

/-- goForward from background.js, lines 238 to 270, the mirror image of goBack:
the guard rejects a candidate index below zero, and openTabByIndex resolves false
for a candidate at or past the length (a stored index past the end), which
recurses with the offset incremented. -/
def goForwardAux (env : Env) (prog : Nat → Nat) (s : ExtState) (last : Nat) (o : Int) :
    List Nat → ExtState × (Nat → Nat) × Nat
  | [] => (s, prog, last)
  | now :: rest =>
    match canExecuteCommand last now with
    | (false, l) => (s, prog, l)
    | (true, l) =>
      if s.tabHistoryIndex - o < 0 then (s, prog, l)
      else
        match openTabByIndex env prog s (s.tabHistoryIndex - o) with
        | (.error _, _, p) => (s, p, l)
        | (.ok true, _, p) => (⟨s.tabHistory, s.tabHistoryIndex - o⟩, p, l)
        | (.ok false, _, p) => goForwardAux env p s l (o + 1) rest

/-- goForward as invoked by the command listener, with the default offset of one. -/
def goForward (env : Env) (prog : Nat → Nat) (s : ExtState) (nows : List Nat)
    (last : Nat) : ExtState × (Nat → Nat) × Nat :=
  goForwardAux env prog s last 1 nows

/-- The filter of cleanupMissingTabs keeping the entries whose id is among the
open tab ids; reading the id field of an undefined cell throws. -/
def jsKeepIds : List (Option Tab) → List Nat → Except Unit (List (Option Tab))
  | [], _ => .ok []
  | none :: _, _ => .error ()
  | some t :: rest, ids =>
    match jsKeepIds rest ids with
    | .error e => .error e
    | .ok l => .ok (if ids.contains t.id then some t :: l else l)

/-- cleanupMissingTabs from background.js, lines 273 to 283: keep only the entries
whose tab is still open; tabHistoryIndex is saved unchanged; a TypeError is caught
with nothing saved. -/
def cleanupMissingTabs (env : Env) (s : ExtState) : ExtState :=
  match jsKeepIds s.tabHistory env.openTabIds with
  | .error _ => s
  | .ok h => ⟨h, s.tabHistoryIndex⟩

/-- One committed operation of the engine, as dispatched by the event listeners:
a tab activation (addTabToHistory), a tab removal, the clear message, the openTab
message, the go-back and go-forward commands, and the startup cleanup. -/
inductive Step (s : ExtState) : ExtState → Prop
  | record (env : Env) (prog : Nat → Nat) (id : Nat) :
      Step s (addTabToHistory env prog s id).1
  | remove (id : Nat) : Step s (removeTabFromHistory s id)
  | clear : Step s (clearTabHistory s)
  | openIdx (env : Env) (prog : Nat → Nat) (index : Int) :
      Step s (openTabByIndex env prog s index).2.1
  | back (env : Env) (prog : Nat → Nat) (nows : List Nat) (last : Nat) :
      Step s (goBack env prog s nows last).1
  | forwardStep (env : Env) (prog : Nat → Nat) (nows : List Nat) (last : Nat) :
      Step s (goForward env prog s nows last).1
  | cleanup (env : Env) : Step s (cleanupMissingTabs env s)

/-- The committed states reachable from the initial persisted state, the pair of
the empty history and index minus one written at install time. -/
inductive Reachable : ExtState → Prop
  | init : Reachable ⟨[], -1⟩
  | step {s t : ExtState} : Reachable s → Step s t → Reachable t

/-- The cursor invariant asserted by the spec: index minus one exactly on the empty
history, and otherwise a position strictly inside the history. -/
def cursorInv (s : ExtState) : Prop :=
  (s.tabHistoryIndex = -1 ↔ s.tabHistory = []) ∧
  (s.tabHistory ≠ [] →
    0 ≤ s.tabHistoryIndex ∧ s.tabHistoryIndex < (s.tabHistory.length : Int))

instance (s : ExtState) : Decidable (cursorInv s) := by
  unfold cursorInv; exact inferInstance

/-- The weaker cursor property the code actually maintains: the index never drops
below minus one, minus one occurs only with the empty history, and the history
never exceeds the limit. -/
def weakInv (s : ExtState) : Prop :=
  -1 ≤ s.tabHistoryIndex ∧ (s.tabHistoryIndex = -1 → s.tabHistory = []) ∧
  s.tabHistory.length ≤ TAB_HISTORY_LIMIT

/-- No two adjacent history cells carry the same tab id. -/
def noAdjDup (h : List (Option Tab)) : Prop :=
  List.Chain' (fun a b => Option.map Tab.id a ≠ Option.map Tab.id b) h

/-- The all-zero programmaticChanges map: no pending suppression. -/
def prog0 : Nat → Nat := fun _ => 0
/-- Concrete tabs used in the concrete instantiations below. -/
def tA : Tab := ⟨1, "a", none⟩
def tB : Tab := ⟨2, "b", none⟩
def tC : Tab := ⟨3, "c", none⟩
/-- An environment where tab 1 exists and nothing else does. -/
def env1 : Env := ⟨fun n => if n = 1 then some ⟨1, some "a", none⟩ else none, [1]⟩
/-- An environment where tabs 1 and 3 exist but tab 2 does not. -/
def envNo2 : Env :=
  ⟨fun n => if n = 1 then some ⟨1, some "a", none⟩
            else if n = 3 then some ⟨3, some "c", none⟩ else none, [1, 3]⟩
/-- An environment where tab 7 exists. -/
def env7 : Env := ⟨fun n => if n = 7 then some ⟨7, some "d", none⟩ else none, [7]⟩
def tD : Tab := ⟨7, "d", none⟩
/-- Tabs used for the C6 counterexample history of length 1000. -/
def tX : Tab := ⟨10, "x", none⟩
def tY : Tab := ⟨11, "y", none⟩
def tZ : Tab := ⟨12, "z", none⟩
def tE : Tab := ⟨500, "e", none⟩
/-- A concrete history of length exactly 1000. -/
def h1000 : List (Option Tab) := some tX :: some tY :: List.replicate 998 (some tZ)
/-- An environment where tab 500 exists and nothing else does. -/
def env500 : Env := ⟨fun n => if n = 500 then some ⟨500, some "e", none⟩ else none, []⟩
/-- The concrete history [A, B, C] with the cursor on A. -/
def s123 : ExtState := ⟨[some tA, some tB, some tC], 0⟩

lemma length_le_of_jsRemoveId {h : List (Option Tab)} {id : Nat} {h2 : List (Option Tab)}
    (e : jsRemoveId h id = .ok h2) : h2.length ≤ h.length := by
  induction h generalizing h2 with
  | nil =>
    simp only [jsRemoveId] at e
    cases e
    simp
  | cons a rest ih =>
    cases a with
    | none => simp [jsRemoveId] at e
    | some t =>
      rw [jsRemoveId] at e
      cases hrec : jsRemoveId rest id with
      | error u => rw [hrec] at e; exact absurd e (by simp)
      | ok l =>
        rw [hrec] at e
        simp only [Except.ok.injEq] at e
        subst e
        have := ih hrec
        split <;> simp <;> omega

lemma length_le_of_jsKeepIds {h : List (Option Tab)} {ids : List Nat} {h2 : List (Option Tab)}
    (e : jsKeepIds h ids = .ok h2) : h2.length ≤ h.length := by
  induction h generalizing h2 with
  | nil =>
    simp only [jsKeepIds] at e
    cases e
    simp
  | cons a rest ih =>
    cases a with
    | none => simp [jsKeepIds] at e
    | some t =>
      rw [jsKeepIds] at e
      cases hrec : jsKeepIds rest ids with
      | error u => rw [hrec] at e; exact absurd e (by simp)
      | ok l =>
        rw [hrec] at e
        simp only [Except.ok.injEq] at e
        subst e
        have := ih hrec
        split <;> simp <;> omega

lemma jsFindIndexById_spec {h : List (Option Tab)} {id k : Nat}
    (e : jsFindIndexById h id = .ok (some k)) :
    ∃ t : Tab, h.get? k = some (some t) ∧ t.id = id := by
  induction h generalizing k with
  | nil => simp [jsFindIndexById] at e
  | cons a rest ih =>
    cases a with
    | none => simp [jsFindIndexById] at e
    | some t =>
      rw [jsFindIndexById] at e
      by_cases hid : t.id = id
      · rw [if_pos hid] at e
        simp only [Except.ok.injEq, Option.some.injEq] at e
        subst e
        exact ⟨t, by simp, hid⟩
      · rw [if_neg hid] at e
        cases hrec : jsFindIndexById rest id with
        | error u => rw [hrec] at e; exact absurd e (by simp)
        | ok o =>
          rw [hrec] at e
          cases o with
          | none => simp at e
          | some k2 =>
            simp only [Except.ok.injEq, Option.some.injEq] at e
            subst e
            obtain ⟨u, hu, hid2⟩ := ih hrec
            exact ⟨u, by simpa using hu, hid2⟩

lemma jsIndex_some_bounds {h : List (Option Tab)} {i : Int} {t : Tab}
    (e : jsIndex h i = some t) : 0 ≤ i ∧ i < (h.length : Int) := by
  unfold jsIndex at e
  split at e
  · exact absurd e (by simp)
  · next hneg =>
    push_neg at hneg
    refine ⟨hneg, ?_⟩
    by_contra hge
    push_neg at hge
    have hlen : h.length ≤ i.toNat := by omega
    rw [List.get?_eq_none.mpr hlen] at e
    simp at e

lemma openTab_true_bounds {env : Env} {prog : Nat → Nat} {s : ExtState} {idx : Int}
    {b : Except Unit Bool} {s2 : ExtState} {p : Nat → Nat}
    (h : openTabByIndex env prog s idx = (b, s2, p)) (hb : b = .ok true) :
    0 ≤ idx ∧ idx < (s.tabHistory.length : Int) ∧ s2 = ⟨s.tabHistory, idx⟩ := by
  subst hb
  unfold openTabByIndex at h
  split at h
  · simp only [Prod.mk.injEq] at h
    exact absurd h.1 (by simp)
  · next hguard =>
    push_neg at hguard
    split at h
    · simp only [Prod.mk.injEq] at h
      exact absurd h.1 (by simp)
    · split at h
      · simp only [Prod.mk.injEq] at h
        exact absurd h.1 (by simp)
      · simp only [Prod.mk.injEq] at h
        exact ⟨hguard.1, hguard.2, h.2.1.symm⟩

lemma resetIdx_eq_zero (i : Int) : (if i ≠ 0 then (0 : Int) else i) = 0 := by
  split <;> omega

lemma truncate_le (l : List (Option Tab)) :
    (if TAB_HISTORY_LIMIT < l.length then l.take TAB_HISTORY_LIMIT else l).length ≤
      TAB_HISTORY_LIMIT := by
  split
  · simp only [List.length_take]
    omega
  · next h => omega

lemma truncate_cons_le (c : Option Tab) (t : List (Option Tab)) :
    (if TAB_HISTORY_LIMIT < t.length + 1 then (c :: t).take TAB_HISTORY_LIMIT
     else c :: t).length ≤ TAB_HISTORY_LIMIT := by
  split
  · simp only [List.length_take, List.length_cons]
    omega
  · next h =>
    simp only [List.length_cons]
    omega

lemma addTab_cases (env : Env) (prog : Nat → Nat) (s : ExtState) (id : Nat) :
    (addTabToHistory env prog s id).1 = s ∨
    ((addTabToHistory env prog s id).1.tabHistoryIndex = 0 ∧
     (addTabToHistory env prog s id).1.tabHistory.length ≤ TAB_HISTORY_LIMIT) := by
  by_cases hp : 0 < prog id
  · left
    simp [addTabToHistory, hp]
  · cases hg : env.getTab id with
    | none =>
      left
      simp [addTabToHistory, hp, hg, jsIdEqCell]
    | some r =>
      right
      simp [addTabToHistory, hp, hg, jsIdEqCell, resetIdx_eq_zero]
      exact truncate_cons_le _ _

lemma weakInv_addTab (env : Env) (prog : Nat → Nat) (s : ExtState) (id : Nat)
    (hw : weakInv s) : weakInv (addTabToHistory env prog s id).1 := by
  rcases addTab_cases env prog s id with h | ⟨h1, h2⟩
  · rw [h]; exact hw
  · exact ⟨by omega, by intro hc; omega, h2⟩

lemma weakInv_remove (s : ExtState) (id : Nat) (hw : weakInv s) :
    weakInv (removeTabFromHistory s id) := by
  unfold removeTabFromHistory
  split
  · exact hw
  · exact hw
  · next idx hfi =>
    split
    · exact hw
    · next h2 hrm =>
      obtain ⟨hw1, hw2, hw3⟩ := hw
      refine ⟨?_, ?_, ?_⟩
      · show -1 ≤ (if (idx : Int) < s.tabHistoryIndex then _ else _)
        split <;> omega
      · show (if (idx : Int) < s.tabHistoryIndex then _ else _) = -1 → _
        split
        · intro hc
          omega
        · intro hc
          have hemp := hw2 hc
          rw [hemp] at hfi
          simp [jsFindIndexById] at hfi
      · exact le_trans (length_le_of_jsRemoveId hrm) hw3

lemma weakInv_clear (s : ExtState) (hw : weakInv s) : weakInv (clearTabHistory s) := by
  unfold clearTabHistory
  split
  · refine ⟨by dsimp only; omega, by dsimp only; intro h; omega, ?_⟩
    show 1 ≤ TAB_HISTORY_LIMIT
    simp [TAB_HISTORY_LIMIT]
  · exact ⟨by dsimp only; omega, fun _ => rfl, by simp [TAB_HISTORY_LIMIT]⟩

lemma weakInv_open (env : Env) (prog : Nat → Nat) (s : ExtState) (index : Int)
    (hw : weakInv s) : weakInv (openTabByIndex env prog s index).2.1 := by
  unfold openTabByIndex
  split
  · exact hw
  · next hguard =>
    push_neg at hguard
    split
    · exact hw
    · split
      · exact hw
      · exact ⟨by dsimp only; omega, by dsimp only; intro hc; omega, hw.2.2⟩

lemma weakInv_goBackAux (env : Env) (s : ExtState) (hw : weakInv s) :
    ∀ (nows : List Nat) (prog : Nat → Nat) (last : Nat) (o : Int),
      weakInv (goBackAux env prog s last o nows).1 := by
  intro nows
  induction nows with
  | nil => intro prog last o; exact hw
  | cons now rest ih =>
    intro prog last o
    rw [goBackAux]
    split
    · exact hw
    · split
      · exact hw
      · split
        · exact hw
        · next b s2 p heq =>
          obtain ⟨hb1, hb2, hb3⟩ := openTab_true_bounds heq rfl
          exact ⟨by dsimp only; omega, by dsimp only; intro hc; omega, hw.2.2⟩
        · exact ih _ _ _

lemma weakInv_goForwardAux (env : Env) (s : ExtState) (hw : weakInv s) :
    ∀ (nows : List Nat) (prog : Nat → Nat) (last : Nat) (o : Int),
      weakInv (goForwardAux env prog s last o nows).1 := by
  intro nows
  induction nows with
  | nil => intro prog last o; exact hw
  | cons now rest ih =>
    intro prog last o
    rw [goForwardAux]
    split
    · exact hw
    · split
      · exact hw
      · split
        · exact hw
        · next b s2 p heq =>
          obtain ⟨hb1, hb2, hb3⟩ := openTab_true_bounds heq rfl
          exact ⟨by dsimp only; omega, by dsimp only; intro hc; omega, hw.2.2⟩
        · exact ih _ _ _

lemma weakInv_cleanup (env : Env) (s : ExtState) (hw : weakInv s) :
    weakInv (cleanupMissingTabs env s) := by
  unfold cleanupMissingTabs
  split
  · exact hw
  · next h2 hk =>
    obtain ⟨hw1, hw2, hw3⟩ := hw
    refine ⟨hw1, ?_, le_trans (length_le_of_jsKeepIds hk) hw3⟩
    intro hc
    have hemp := hw2 hc
    rw [hemp] at hk
    simp only [jsKeepIds, Except.ok.injEq] at hk
    exact hk.symm

lemma weakInv_step {s t : ExtState} (hw : weakInv s) (hst : Step s t) : weakInv t := by
  cases hst with
  | record env prog id => exact weakInv_addTab env prog s id hw
  | remove id => exact weakInv_remove s id hw
  | clear => exact weakInv_clear s hw
  | openIdx env prog index => exact weakInv_open env prog s index hw
  | back env prog nows last => exact weakInv_goBackAux env s hw nows prog last 1
  | forwardStep env prog nows last => exact weakInv_goForwardAux env s hw nows prog last 1
  | cleanup env => exact weakInv_cleanup env s hw

lemma reachable_weakInv {s : ExtState} (hr : Reachable s) : weakInv s := by
  induction hr with
  | init => exact ⟨by dsimp only; omega, fun _ => rfl, by simp [TAB_HISTORY_LIMIT]⟩
  | step hr2 hst ih => exact weakInv_step ih hst

/-- C1 amended: when the candidate entry one step back exists but its tab can no
longer be activated, goBack catches the rejected activation and terminates with
the committed history and cursor unchanged: the stale entry is not removed from
history and no retry with a larger offset happens. -/
theorem C1_amended (env : Env) (prog : Nat → Nat) (s : ExtState) (last now : Nat)
    (rest : List Nat) (t : Tab)
    (hacc : MIN_COMMAND_INTERVAL ≤ now - last)
    (hcell : jsIndex s.tabHistory (s.tabHistoryIndex + 1) = some t)
    (hgone : env.getTab t.id = none) :
    (goBack env prog s (now :: rest) last).1 = s := by
  obtain ⟨hb1, hb2⟩ := jsIndex_some_bounds hcell
  have hc : canExecuteCommand last now = (true, now) := by
    unfold canExecuteCommand
    rw [if_pos hacc]
  have hopen : openTabByIndex env prog s (s.tabHistoryIndex + 1) =
      (.error (), s, bumpProg prog t.id) := by
    unfold openTabByIndex
    rw [if_neg (by omega), hcell]
    dsimp only
    rw [hgone]
  unfold goBack
  rw [goBackAux, hc]
  dsimp only
  rw [if_neg (by omega), hopen]

/-- Witness for C1 amended at a concrete stale candidate. -/
theorem C1_amended_witness :
    (goBack envNo2 prog0 ⟨[some tA, some tB], 0⟩ [300] 0).1 =
      ⟨[some tA, some tB], 0⟩ :=
  C1_amended envNo2 prog0 ⟨[some tA, some tB], 0⟩ 0 300 [] tB (by decide) (by decide)
    (by decide)

/-- C1 counterexample: from [A, B, C] with the cursor at 0 and tab B gone, goBack
returns with the committed state unchanged, and that state is not the state the
claim requires (B removed, cursor on C at its new position 1). -/
theorem C1_counterexample :
    (goBack envNo2 prog0 s123 [200] 0).1 = s123 ∧
    s123 ≠ ⟨[some tA, some tC], 1⟩ := by
  constructor
  · decide
  · decide

/-- C9: updateTabInfo changes at most the title and favicon of the first entry
whose id matches: the cursor, the length, and the cell-wise tab ids are unchanged,
and every position other than the matched one holds exactly the cell it held
before, whether or not the id occurs. -/
theorem C9_updateTabInfo_frame (s : ExtState) (id : Nat) (c : Changes) :
    (updateTabInfo s id c).tabHistoryIndex = s.tabHistoryIndex ∧
    (updateTabInfo s id c).tabHistory.length = s.tabHistory.length ∧
    (updateTabInfo s id c).tabHistory.map (Option.map Tab.id) =
      s.tabHistory.map (Option.map Tab.id) ∧
    ∀ k : Nat, jsFindIndexById s.tabHistory id ≠ Except.ok (some k) →
      (updateTabInfo s id c).tabHistory.get? k = s.tabHistory.get? k := by
  unfold updateTabInfo
  cases hfi : jsFindIndexById s.tabHistory id with
  | error u => exact ⟨rfl, rfl, rfl, fun k _ => rfl⟩
  | ok o =>
    cases o with
    | none => exact ⟨rfl, rfl, rfl, fun k _ => rfl⟩
    | some idx =>
      obtain ⟨t, hget, hid⟩ := jsFindIndexById_spec hfi
      have hidx : jsIndex s.tabHistory (idx : Int) = some t := by
        unfold jsIndex
        rw [if_neg (by omega)]
        simp only [Int.toNat_natCast]
        rw [hget]
        rfl
      refine ⟨rfl, ?_, ?_, ?_⟩
      · dsimp only
        exact List.length_set s.tabHistory idx _
      · dsimp only
        rw [hidx]
        dsimp only
        apply List.ext
        intro n
        rw [List.get?_map, List.get?_map]
        by_cases hn : idx = n
        · subst hn
          rw [List.get?_set_eq, hget]
          simp
        · rw [List.get?_set_ne _ _ hn]
      · intro k hk
        have hkne : idx ≠ k := by
          intro he
          apply hk
          rw [he]
        dsimp only
        rw [hidx]
        dsimp only
        rw [List.get?_set_ne _ _ hkne]

/-- Witness for C9: patching an absent id leaves every cell unchanged. -/
theorem C9_witness :
    (updateTabInfo ⟨[some tA], 0⟩ 5 ⟨some "n", none⟩).tabHistory.get? 0 =
      some (some tA) := by
  have h := (C9_updateTabInfo_frame ⟨[some tA], 0⟩ 5 ⟨some "n", none⟩).2.2.2 0
    (by simp [jsFindIndexById, tA])
  rw [h]
  rfl

/-- C10: from a loaded state with a non-empty history and cursor minus one,
addTabToHistory first treats the cursor as zero, so the duplicate check and the
branch-discard run against index zero and the existing history survives intact:
the commit is the new record prepended to the whole previous history (truncated
only by the limit), with the cursor at zero, not a history truncated by slicing
from minus one. -/
theorem C10_minus_one_cursor (env : Env) (prog : Nat → Nat) (id : Nat)
    (r : TabInfo) (h : List (Option Tab)) (hne : h ≠ [])
    (hp : prog id = 0) (hg : env.getTab id = some r) :
    (addTabToHistory env prog ⟨h, -1⟩ id).1 =
      ⟨(some (mkTab r) :: h).take TAB_HISTORY_LIMIT, 0⟩ := by
  have hlen : 0 < h.length := List.length_pos.mpr hne
  simp [addTabToHistory, hp, hg, jsIdEqCell, hlen]

/-- Witness for C10 at a concrete one-entry history. -/
theorem C10_witness :
    (addTabToHistory env1 prog0 ⟨[some tB], -1⟩ 1).1 =
      ⟨(some (mkTab ⟨1, some "a", none⟩) :: [some tB]).take TAB_HISTORY_LIMIT, 0⟩ :=
  C10_minus_one_cursor env1 prog0 1 ⟨1, some "a", none⟩ [some tB] (by decide) rfl
    (by decide)

/-- C2 counterexample: the committed state with an empty history and index zero is
reachable (activate tab 1 from the initial state, then remove it), and it violates
the cursor invariant asserted by the claim. -/
theorem C2_counterexample : Reachable ⟨[], 0⟩ ∧ ¬ cursorInv ⟨[], 0⟩ := by
  constructor
  · have h1 : Reachable ⟨[some tA], 0⟩ := by
      have hs := Step.record (s := ⟨[], -1⟩) env1 prog0 1
      have he : (addTabToHistory env1 prog0 ⟨[], -1⟩ 1).1 = ⟨[some tA], 0⟩ := by decide
      rw [he] at hs
      exact Reachable.step Reachable.init hs
    have hs2 := Step.remove (s := ⟨[some tA], 0⟩) 1
    have he2 : removeTabFromHistory ⟨[some tA], 0⟩ 1 = ⟨[], 0⟩ := by decide
    rw [he2] at hs2
    exact Reachable.step h1 hs2
  · decide

/-- C2 amended: every state reachable from the empty initial state by the listed
operations keeps the cursor at or above minus one, reaches minus one only with an
empty history, and keeps the history within the limit; but the converse direction
of the claimed equivalence, and the upper bound of the cursor, fail, because
removeTabFromHistory and cleanupMissingTabs never clamp the cursor. -/
theorem C2_amended_invariant (s : ExtState) (hr : Reachable s) : weakInv s :=
  reachable_weakInv hr

/-- Witness for C2 amended at the initial state. -/
theorem C2_amended_witness : weakInv ⟨[], -1⟩ :=
  C2_amended_invariant ⟨[], -1⟩ Reachable.init

/-- C3, the code bug at the failing input: with history [tab 7] and index 0,
activating tab 7 again (tab open, no suppression pending) commits the history
[tab 7, tab 7], an adjacent duplicate, because the duplicate check of line 90
compares the number id with the history cell object and is always false. -/
theorem C3_code_bug :
    (addTabToHistory env7 prog0 ⟨[some tD], 0⟩ 7).1 = ⟨[some tD, some tD], 0⟩ ∧
    ¬ noAdjDup [some tD, some tD] := by
  constructor
  · decide
  · intro h
    unfold noAdjDup at h
    simp [List.chain'_cons] at h

/-- C4, the code bug at the failing input: re-activating the front tab is not
idempotent; the committed state changes (a duplicate entry is prepended). -/
theorem C4_code_bug :
    (addTabToHistory env7 prog0 ⟨[some tD], 0⟩ 7).1 ≠ ⟨[some tD], 0⟩ := by decide

/-- C5: from history [A, B, C, D] with the cursor at C (index 2), activating a tab
that still exists, is not suppressed, and differs from C, commits [new, C, D] with
index 0: the entries before the cursor are discarded, the suffix from the cursor on
is kept, and the new record is prepended. -/
theorem C5_branch_discard (A B C D : Tab) (r : TabInfo) (env : Env)
    (prog : Nat → Nat) (id : Nat) (hp : prog id = 0) (hg : env.getTab id = some r)
    (hne : r.id ≠ C.id) :
    (addTabToHistory env prog ⟨[some A, some B, some C, some D], 2⟩ id).1 =
      ⟨[some (mkTab r), some C, some D], 0⟩ := by
  simp [addTabToHistory, hp, hg, jsIdEqCell, jsSlice, TAB_HISTORY_LIMIT]

/-- Witness for C5 at concrete tabs. -/
theorem C5_witness :
    (addTabToHistory env1 prog0 ⟨[some tB, some tC, some tD, some tD], 2⟩ 1).1 =
      ⟨[some (mkTab ⟨1, some "a", none⟩), some tD, some tD], 0⟩ :=
  C5_branch_discard tB tC tD tD ⟨1, some "a", none⟩ env1 prog0 1 rfl (by decide)
    (by decide)

/-- C6 amended: on a history already at the limit with the cursor at the front,
activating a new existing tab keeps the length at exactly the limit, dropping only
the oldest (tail) entry and preserving the order of the rest; and after any
reachable sequence of committed operations the length never exceeds the limit.
With the cursor away from the front the claim fails: the entries before the cursor
are discarded instead and the tail survives. -/
theorem C6_amended (env : Env) (prog : Nat → Nat) (id : Nat) (r : TabInfo)
    (h : List (Option Tab)) (hlen : h.length = TAB_HISTORY_LIMIT)
    (hp : prog id = 0) (hg : env.getTab id = some r) :
    (addTabToHistory env prog ⟨h, 0⟩ id).1 =
      ⟨some (mkTab r) :: h.take (TAB_HISTORY_LIMIT - 1), 0⟩ ∧
    ∀ s : ExtState, Reachable s → s.tabHistory.length ≤ TAB_HISTORY_LIMIT := by
  constructor
  · have h1 : (addTabToHistory env prog ⟨h, 0⟩ id).1 =
        ⟨(some (mkTab r) :: h).take TAB_HISTORY_LIMIT, 0⟩ := by
      simp [addTabToHistory, hp, hg, jsIdEqCell, hlen, TAB_HISTORY_LIMIT]
    have ht : List.take TAB_HISTORY_LIMIT (some (mkTab r) :: h) =
        some (mkTab r) :: List.take (TAB_HISTORY_LIMIT - 1) h := by
      rw [show (TAB_HISTORY_LIMIT : Nat) = (TAB_HISTORY_LIMIT - 1) + 1 from rfl,
        List.take_succ_cons]
      simp [TAB_HISTORY_LIMIT]
    rw [h1, ht]
  · intro s hr
    exact (reachable_weakInv hr).2.2

/-- C6 counterexample: on a history of length exactly the limit with the cursor at
index 1, activating a new tab does not drop only the oldest entry: the entry before
the cursor is discarded instead, so the committed history differs from the one the
claim describes. -/
theorem C6_counterexample :
    h1000.length = TAB_HISTORY_LIMIT ∧
    (addTabToHistory env500 prog0 ⟨h1000, 1⟩ 500).1.tabHistory ≠
      some tE :: h1000.take (TAB_HISTORY_LIMIT - 1) := by
  have hmk : mkTab ⟨500, some "e", none⟩ = tE := by decide
  constructor
  · simp [h1000, TAB_HISTORY_LIMIT]
  · have hres : (addTabToHistory env500 prog0 ⟨h1000, 1⟩ 500).1.tabHistory =
        some tE :: some tY :: List.replicate 998 (some tZ) := by
      simp [addTabToHistory, prog0, env500, jsIdEqCell, jsSlice, h1000, hmk,
        TAB_HISTORY_LIMIT]
    rw [hres]
    rw [show h1000 = some tX :: some tY :: List.replicate 998 (some tZ) from rfl,
      show TAB_HISTORY_LIMIT - 1 = 998 + 1 from rfl, List.take_succ_cons]
    intro heq
    simp only [List.cons.injEq] at heq
    exact absurd heq.2.1 (by decide)

/-- C7: openTabByIndex resolves false and commits nothing for any index outside
the bounds of the history, and for an in-bounds index whose cell holds a tab that
the browser can still activate it commits the pair (history, index) and resolves
true. -/
theorem C7_openTabByIndex (env : Env) (prog : Nat → Nat) (s : ExtState)
    (index : Int) :
    ((index < 0 ∨ (s.tabHistory.length : Int) ≤ index) →
      openTabByIndex env prog s index = (.ok false, s, prog)) ∧
    (∀ t : Tab, jsIndex s.tabHistory index = some t →
      ∀ r : TabInfo, env.getTab t.id = some r →
        openTabByIndex env prog s index =
          (.ok true, ⟨s.tabHistory, index⟩, bumpProg prog t.id)) := by
  constructor
  · intro hob
    unfold openTabByIndex
    rw [if_pos hob]
  · intro t hcell r hr
    obtain ⟨hb1, hb2⟩ := jsIndex_some_bounds hcell
    have hno : ¬(index < 0 ∨ (s.tabHistory.length : Int) ≤ index) := by omega
    simp [openTabByIndex, hno, hcell, hr]

/-- Witness for C7: an out-of-range index resolves false, an in-range one true. -/
theorem C7_witness :
    openTabByIndex env1 prog0 ⟨[some tA], 0⟩ 5 = (.ok false, ⟨[some tA], 0⟩, prog0) ∧
    openTabByIndex env1 prog0 ⟨[some tA], 0⟩ 0 =
      (.ok true, ⟨[some tA], 0⟩, bumpProg prog0 tA.id) := by
  refine ⟨(C7_openTabByIndex env1 prog0 ⟨[some tA], 0⟩ 5).1 ?_,
    (C7_openTabByIndex env1 prog0 ⟨[some tA], 0⟩ 0).2 tA ?_ ⟨1, some "a", none⟩ ?_⟩
  · right
    decide
  · decide
  · decide

/-- C8: a navigation command issued strictly less than MIN_COMMAND_INTERVAL after
the last accepted one is rejected: the throttle gate returns false without moving
the stored timestamp, and both goBack and goForward return with the committed
state, the suppression map and the timestamp unchanged. -/
theorem C8_throttle (env : Env) (prog : Nat → Nat) (s : ExtState) (nows : List Nat)
    (last now : Nat) (h : now < last + MIN_COMMAND_INTERVAL) :
    canExecuteCommand last now = (false, last) ∧
    goBack env prog s (now :: nows) last = (s, prog, last) ∧
    goForward env prog s (now :: nows) last = (s, prog, last) := by
  have hc : canExecuteCommand last now = (false, last) := by
    have h2 : ¬ (MIN_COMMAND_INTERVAL ≤ now - last) := by
      simp only [MIN_COMMAND_INTERVAL] at h ⊢
      omega
    unfold canExecuteCommand
    rw [if_neg h2]
  refine ⟨hc, ?_, ?_⟩
  · unfold goBack
    rw [goBackAux, hc]
  · unfold goForward
    rw [goForwardAux, hc]

/-- Witness for C8 at a concrete pair of times 50 milliseconds apart. -/
theorem C8_witness :
    canExecuteCommand 1000 1050 = (false, 1000) ∧
    goBack env1 prog0 ⟨[], -1⟩ [1050] 1000 = (⟨[], -1⟩, prog0, 1000) ∧
    goForward env1 prog0 ⟨[], -1⟩ [1050] 1000 = (⟨[], -1⟩, prog0, 1000) :=
  C8_throttle env1 prog0 ⟨[], -1⟩ [] 1000 1050 (by decide)

/-- Witness for C6 amended at the concrete length-1000 history with cursor 0. -/
theorem C6_amended_witness :
    (addTabToHistory env500 prog0 ⟨h1000, 0⟩ 500).1 =
      ⟨some (mkTab ⟨500, some "e", none⟩) :: h1000.take (TAB_HISTORY_LIMIT - 1), 0⟩ ∧
    (⟨[], -1⟩ : ExtState).tabHistory.length ≤ TAB_HISTORY_LIMIT := by
  have h := C6_amended env500 prog0 500 ⟨500, some "e", none⟩ h1000
    (by simp [h1000, TAB_HISTORY_LIMIT]) rfl (by decide)
  exact ⟨h.1, h.2 ⟨[], -1⟩ Reachable.init⟩

end TabJump
